import Mathlib

/-!
Shallow embedding of the heliotrope Solr client's response-decoding layer
(`src/response.rs`), together with the document/field-value data model it
consumes.

Conventions of the embedding:

* The external JSON library (`serialize::json`, pre-1.0 Rust) represents a
  parsed JSON tree by the enum `Json` with variants `I64, U64, F64, String,
  Boolean, List, Object(TreeMap<String, Json>), Null`.  We mirror it with the
  inductive `Json` below.  A JSON object is a `TreeMap`, so its entry list is
  in strictly increasing key order with no duplicate keys; we carry the entry
  list and rely on that invariant only where it matters (object construction
  from a serialized document, via `treeOfList`).
* `f64` payloads are carried opaquely as their bit pattern (a `Nat`); no claim
  under consideration computes with floating-point values.
* Rust machine-integer casts are made explicit: `as u32` truncates to the low
  32 bits, `u64 as i64` and `i64 as u64` reinterpret two's-complement.
* The textual JSON parser `json::from_str` is external library code; the
  decoder is embedded from the point where its result is inspected, so
  `SolrQueryResponse.from_json_str` takes `Except String Json` — `.error e`
  models a parse failure with parser message `e`, `.ok j` a successful parse.
* `Option::unwrap` on `None` aborts the program; the decoder's result type
  `DecodeResult` has a `fault` outcome modelling that abort (panic).
-/

namespace Heliotrope

/-- Parsed JSON tree, mirroring `serialize::json::Json`
(variants `I64, U64, F64, String, Boolean, List, Object, Null`).
An `obj` entry list stands for a `TreeMap` iterated in sorted key order;
`F64` carries the bit pattern of the `f64` payload. -/
inductive Json where
  | I64 : Int → Json
  | U64 : Nat → Json
  | F64 : Nat → Json
  | str : String → Json
  | boolean : Bool → Json
  | list : List Json → Json
  | obj : List (String × Json) → Json
  | null : Json
deriving Repr

/-- `TreeMap::find`: look a key up in an object's entry list. -/
def lookupEntries : List (String × Json) → String → Option Json
  | [], _ => none
  | (k, v) :: rest, key => if k = key then some v else lookupEntries rest key

/-- `Json::find`: on an `Object`, look the key up in the map;
on any other variant, `None`. -/
def Json.find : Json → String → Option Json
  | .obj entries, key => lookupEntries entries key
  | _, _ => none

/-- `u64 as i64`: two's-complement reinterpretation. -/
def i64ofU64 (n : Nat) : Int :=
  if n % 2 ^ 64 < 2 ^ 63 then ((n % 2 ^ 64 : Nat) : Int) else ((n % 2 ^ 64 : Nat) : Int) - 2 ^ 64

/-- `i64 as u64`: two's-complement reinterpretation. -/
def u64ofI64 (i : Int) : Nat := (i % (2 ^ 64 : Int)).toNat

/-- `i64 as u32`: truncation to the low 32 bits. -/
def u32ofI64 (i : Int) : Nat := (i % (2 ^ 32 : Int)).toNat

/-- `u64 as u32`: truncation to the low 32 bits. -/
def u32ofU64 (n : Nat) : Nat := n % 2 ^ 32

/-- `Json::as_i64`: `Some` exactly on the `I64` and `U64` variants
(`U64` reinterpreted as `i64`). -/
def Json.as_i64 : Json → Option Int
  | .I64 n => some n
  | .U64 n => some (i64ofU64 n)
  | _ => none

/-- `Json::as_u64`: `Some` exactly on the `I64` and `U64` variants
(`I64` reinterpreted as `u64`). -/
def Json.as_u64 : Json → Option Nat
  | .I64 n => some (u64ofI64 n)
  | .U64 n => some n
  | _ => none

/-- Field value variants of the document model (`document.rs`, visible through
`response.rs`'s use clause: `SolrString, SolrI64, SolrU64, SolrF64,
SolrBoolean, SolrNull`).  `SolrF64` carries a bit pattern, as `Json.F64` does. -/
inductive SolrValue where
  | SolrString : String → SolrValue
  | SolrI64 : Int → SolrValue
  | SolrU64 : Nat → SolrValue
  | SolrF64 : Nat → SolrValue
  | SolrBoolean : Bool → SolrValue
  | SolrNull : SolrValue
deriving Repr, DecidableEq

/-- One named field of a document (`SolrField { name, value }`). -/
structure SolrField where
  name : String
  value : SolrValue
deriving Repr, DecidableEq

/-- A schema-less document: an ordered sequence of fields
(`SolrDocument { fields: Vec<SolrField> }`). -/
structure SolrDocument where
  fields : List SolrField
deriving Repr, DecidableEq

/-- `SolrError { status: int, time: int, message: String }`. -/
structure SolrError where
  status : Int
  time : Int
  message : String
deriving Repr, DecidableEq

/-- `SolrQueryResponse { status: u32, time: u32, total: u64, start: u64,
items: Vec<SolrDocument> }`; the `u32`/`u64` fields are embedded as `Nat`,
kept in range by the explicit casts at their assignment sites. -/
structure SolrQueryResponse where
  status : Nat
  time : Nat
  total : Nat
  start : Nat
  items : List SolrDocument
deriving Repr, DecidableEq

/-- Outcome of running `from_json_str`: a returned `Ok`, a returned `Err`,
or `fault` — the program aborted in an `Option::unwrap` on `None`
(an uncaught panic, not a returned value). -/
inductive DecodeResult where
  | fault : DecodeResult
  | ok : SolrQueryResponse → DecodeResult
  | err : SolrError → DecodeResult
deriving Repr, DecidableEq

/-- The zero-initialized response the decoder starts from
(`SolrQueryResponse { status: 0, time: 0, total: 0, start: 0, items: Vec::new() }`). -/
def resp0 : SolrQueryResponse := ⟨0, 0, 0, 0, []⟩

/-- Decoder state: the partially filled response and the single mutable
error string (`let mut error: String = "".to_string()`). -/
abbrev St := SolrQueryResponse × String

/-- The `QTime` lookup inside `responseHeader`: on success assign
`response.time = time_json.as_i64().unwrap() as u32` (with `unwrap` on a
non-numeric value aborting, modelled by `none`); on a missing key record the
error message and continue. -/
def qtimeStep (rh : Json) (st : St) : Option St :=
  match rh.find "QTime" with
  | some tj =>
      match tj.as_i64 with
      | some i => some ({ st.1 with time := u32ofI64 i }, st.2)
      | none => none
  | none => some (st.1, "SolrQueryResponse JSON parsing error (responseHeader): QTime not found")

/-- The `status` lookup inside `responseHeader`: on success assign
`response.status = status_json.as_u64().unwrap() as u32`; on a missing key
record the error message and continue. -/
def statusStep (rh : Json) (st : St) : Option St :=
  match rh.find "status" with
  | some sj =>
      match sj.as_u64 with
      | some n => some ({ st.1 with status := u32ofU64 n }, st.2)
      | none => none
  | none => some (st.1, "SolrQueryResponse JSON parsing error (responseHeader): status not found")

/-- The `responseHeader` section: look the key up in the top-level map, then
run the `QTime` and `status` lookups in order; a missing `responseHeader`
records its error message and skips the section. -/
def headerStep (tm : List (String × Json)) (st : St) : Option St :=
  match lookupEntries tm "responseHeader" with
  | some rh => (qtimeStep rh st).bind (statusStep rh)
  | none => some (st.1, "SolrQueryResponse JSON parsing error: responseHeader not found")

/-- The `numFound` lookup inside `response`: on success assign
`response.total = total_json.as_u64().unwrap()`. -/
def numFoundStep (rs : Json) (st : St) : Option St :=
  match rs.find "numFound" with
  | some tj =>
      match tj.as_u64 with
      | some n => some ({ st.1 with total := n }, st.2)
      | none => none
  | none => some (st.1, "SolrQueryResponse JSON parsing error (response): numFound not found")

/-- The `start` lookup inside `response`: on success assign
`response.start = start_json.as_u64().unwrap()`. -/
def startStep (rs : Json) (st : St) : Option St :=
  match rs.find "start" with
  | some sj =>
      match sj.as_u64 with
      | some n => some ({ st.1 with start := n }, st.2)
      | none => none
  | none => some (st.1, "SolrQueryResponse JSON parsing error (response): start not found")

/-- Runtime dispatch on a field value's JSON variant: the five scalar
variants map to their `SolrValue` counterparts, everything else
(`List`, `Object`, `Null`) degrades to `SolrNull` (the `_ => SolrNull` arm). -/
def decodeDocValue : Json → SolrValue
  | .I64 i => .SolrI64 i
  | .U64 n => .SolrU64 n
  | .F64 b => .SolrF64 b
  | .str s => .SolrString s
  | .boolean b => .SolrBoolean b
  | _ => .SolrNull

/-- Decode one doc object: every key/value pair of the map (in `TreeMap`
iteration order) becomes one field. -/
def decodeDoc (tm : List (String × Json)) : SolrDocument :=
  ⟨tm.map fun kv => ⟨kv.1, decodeDocValue kv.2⟩⟩

/-- The `for doc_json in docs.iter()` loop: an object element is decoded and
pushed onto `response.items`; a non-object element overwrites the error
string and is skipped.  No step of this loop can abort. -/
def docsLoop : List Json → SolrQueryResponse → String → St
  | [], resp, err => (resp, err)
  | dj :: rest, resp, err =>
      match dj with
      | .obj tm => docsLoop rest { resp with items := resp.items ++ [decodeDoc tm] } err
      | _ => docsLoop rest resp "SolrQueryResponse JSON parsing error (response => docs): doc is not an object"

/-- The `docs` lookup inside `response`: a present `List` runs the doc loop;
a present non-`List` or a missing key records the matching error message. -/
def docsStep (rs : Json) (st : St) : St :=
  match rs.find "docs" with
  | some dj =>
      match dj with
      | .list docs => docsLoop docs st.1 st.2
      | _ => (st.1, "SolrQueryResponse JSON parsing error (response): docs is not a JSON list")
  | none => (st.1, "SolrQueryResponse JSON parsing error (response): docs not found")

/-- The `response` section: look the key up in the top-level map, then run the
`numFound`, `start` and `docs` lookups in order; a missing `response`
records its error message and skips the section. -/
def responseStep (tm : List (String × Json)) (st : St) : Option St :=
  match lookupEntries tm "response" with
  | some rs => ((numFoundStep rs st).bind (startStep rs)).bind (fun st2 => some (docsStep rs st2))
  | none => some (st.1, "SolrQueryResponse JSON parsing error: response not found")

/-- The whole traversal over a parse result: a parse failure or a non-object
top level records a terminal message; an object runs the `responseHeader`
section then the `response` section over the zero-initialized state. -/
def runParsed : Except String Json → Option St
  | .error e => some (resp0, "SolrQueryResponse JSON parsing error: " ++ e)
  | .ok (.obj tm) => (headerStep tm (resp0, "")).bind (responseStep tm)
  | .ok _ => some (resp0, "SolrQueryResponse JSON parsing error: query response is not a JSON object.")

/-- `SolrQueryResponse::from_json_str`, from the point where the result of the
external `json::from_str` is inspected: run the traversal, then
`if error.len() == 0 { Ok(response) } else { Err(SolrError { time: 0, status: 0, message: error }) }`;
an aborted traversal (unwrap on `None`) is the `fault` outcome. -/
def SolrQueryResponse.from_json_str (parsed : Except String Json) : DecodeResult :=
  match runParsed parsed with
  | none => .fault
  | some (resp, err) => if err.length = 0 then .ok resp else .err ⟨0, 0, err⟩

/-! ### Instrumented traversal

The same traversal, but instead of one mutable error string that later
recordings overwrite, the instrumented state keeps the full chronological
list of recorded error messages.  The fields of the partial response are
filled exactly as in the plain traversal. -/

/-- Instrumented decoder state: the partial response and the chronological
list of every error message recorded so far. -/
abbrev StT := SolrQueryResponse × List String

/-- Instrumented `QTime` lookup: identical to `qtimeStep` except that a
recorded message is appended instead of overwriting. -/
def qtimeStepT (rh : Json) (st : StT) : Option StT :=
  match rh.find "QTime" with
  | some tj =>
      match tj.as_i64 with
      | some i => some ({ st.1 with time := u32ofI64 i }, st.2)
      | none => none
  | none => some (st.1, st.2 ++ ["SolrQueryResponse JSON parsing error (responseHeader): QTime not found"])

/-- Instrumented `status` lookup. -/
def statusStepT (rh : Json) (st : StT) : Option StT :=
  match rh.find "status" with
  | some sj =>
      match sj.as_u64 with
      | some n => some ({ st.1 with status := u32ofU64 n }, st.2)
      | none => none
  | none => some (st.1, st.2 ++ ["SolrQueryResponse JSON parsing error (responseHeader): status not found"])

/-- Instrumented `responseHeader` section. -/
def headerStepT (tm : List (String × Json)) (st : StT) : Option StT :=
  match lookupEntries tm "responseHeader" with
  | some rh => (qtimeStepT rh st).bind (statusStepT rh)
  | none => some (st.1, st.2 ++ ["SolrQueryResponse JSON parsing error: responseHeader not found"])

/-- Instrumented `numFound` lookup. -/
def numFoundStepT (rs : Json) (st : StT) : Option StT :=
  match rs.find "numFound" with
  | some tj =>
      match tj.as_u64 with
      | some n => some ({ st.1 with total := n }, st.2)
      | none => none
  | none => some (st.1, st.2 ++ ["SolrQueryResponse JSON parsing error (response): numFound not found"])

/-- Instrumented `start` lookup. -/
def startStepT (rs : Json) (st : StT) : Option StT :=
  match rs.find "start" with
  | some sj =>
      match sj.as_u64 with
      | some n => some ({ st.1 with start := n }, st.2)
      | none => none
  | none => some (st.1, st.2 ++ ["SolrQueryResponse JSON parsing error (response): start not found"])

/-- Instrumented doc loop. -/
def docsLoopT : List Json → SolrQueryResponse → List String → StT
  | [], resp, errs => (resp, errs)
  | dj :: rest, resp, errs =>
      match dj with
      | .obj tm => docsLoopT rest { resp with items := resp.items ++ [decodeDoc tm] } errs
      | _ => docsLoopT rest resp (errs ++ ["SolrQueryResponse JSON parsing error (response => docs): doc is not an object"])

/-- Instrumented `docs` lookup. -/
def docsStepT (rs : Json) (st : StT) : StT :=
  match rs.find "docs" with
  | some dj =>
      match dj with
      | .list docs => docsLoopT docs st.1 st.2
      | _ => (st.1, st.2 ++ ["SolrQueryResponse JSON parsing error (response): docs is not a JSON list"])
  | none => (st.1, st.2 ++ ["SolrQueryResponse JSON parsing error (response): docs not found"])

/-- Instrumented `response` section. -/
def responseStepT (tm : List (String × Json)) (st : StT) : Option StT :=
  match lookupEntries tm "response" with
  | some rs => ((numFoundStepT rs st).bind (startStepT rs)).bind (fun st2 => some (docsStepT rs st2))
  | none => some (st.1, st.2 ++ ["SolrQueryResponse JSON parsing error: response not found"])

/-- Instrumented whole traversal: same structure as `runParsed`, with the
full list of recorded error messages in traversal order. -/
def runParsedT : Except String Json → Option StT
  | .error e => some (resp0, ["SolrQueryResponse JSON parsing error: " ++ e])
  | .ok (.obj tm) => (headerStepT tm (resp0, [])).bind (responseStepT tm)
  | .ok _ => some (resp0, ["SolrQueryResponse JSON parsing error: query response is not a JSON object."])

/-! ### Serialization model (for the round-trip property)

`SolrDocument`'s JSON serialization lives in `document.rs`, which is not part
of the decoding source; its composition with the external textual parser is
modelled from the spec. -/

/-- Modelled from the spec: the JSON tree the generic parser produces when it
re-parses the serialized form of one field value (`document.rs`'s
serialization is the missing code).  Per §4.2 an integer is re-parsed
"per sign and range": a non-negative integer comes back as the `U64` variant,
a negative one as `I64`.  Strings, booleans and null re-parse to their own
variants; the `f64` payload is carried through as its bit pattern. -/
def jsonOfValue : SolrValue → Json
  | .SolrI64 i => if i < 0 then .I64 i else .U64 i.toNat
  | .SolrU64 n => .U64 n
  | .SolrF64 b => .F64 b
  | .SolrString s => .str s
  | .SolrBoolean b => .boolean b
  | .SolrNull => .null

/-- `TreeMap::insert`: sorted insertion, a duplicate key overwrites. -/
def treeInsert : List (String × Json) → String → Json → List (String × Json)
  | [], k, v => [(k, v)]
  | (k', v') :: rest, k, v =>
      if k < k' then (k, v) :: (k', v') :: rest
      else if k = k' then (k, v) :: rest
      else (k', v') :: treeInsert rest k v

/-- Build a `TreeMap` from entries in textual order, as the parser does when
it reads the members of a JSON object text left to right. -/
def treeOfList (l : List (String × Json)) : List (String × Json) :=
  l.foldl (fun acc kv => treeInsert acc kv.1 kv.2) []

/-- Modelled from the spec: the JSON tree obtained by serializing a document
(`{name: value, ...}`, fields in order) and re-parsing the text — the parser
collects the members into a `TreeMap`. -/
def serializedDoc (d : SolrDocument) : Json :=
  .obj (treeOfList (d.fields.map fun f => (f.name, jsonOfValue f.value)))

/-- A well-formed query response envelope around a given `docs` array, with
top-level and section keys in `TreeMap` (sorted) order. -/
def queryEnvelope (docs : List Json) (numFound start status qtime : Nat) : Json :=
  .obj [("response", .obj [("docs", .list docs), ("numFound", .U64 numFound), ("start", .U64 start)]),
        ("responseHeader", .obj [("QTime", .U64 qtime), ("status", .U64 status)])]

/-! ### The error-envelope decoder -/

/-- The generic decoder reading an integer out of a JSON value
(numeric variants only). -/
def readInt : Json → Except String Int
  | .I64 n => .ok n
  | .U64 n => .ok (i64ofU64 n)
  | _ => .error "invalid type: expected integer"

/-- The generic decoder reading a string out of a JSON value. -/
def readString : Json → Except String String
  | .str s => .ok s
  | _ => .error "invalid type: expected string"

/-- `read_struct_field`: find the named field of a JSON object, a missing
field (or a non-object) is a decode error. -/
def readStructField (j : Json) (fieldName : String) : Except String Json :=
  match j.find fieldName with
  | some v => .ok v
  | none => .error ("unknown field " ++ fieldName)

/-- `impl Decodable for SolrError`: inside the struct field `error`, read
`msg` as the message and `code` as the status, in that order; `time` is
hard-coded 0. -/
def SolrError.decode (j : Json) : Except String SolrError := do
  let e ← readStructField j "error"
  let msgJ ← readStructField e "msg"
  let msg ← readString msgJ
  let codeJ ← readStructField e "code"
  let code ← readInt codeJ
  .ok ⟨code, 0, msg⟩

/-- A JSON variant the field decoder supports as a scalar (the five variants
with their own `SolrValue` counterpart); `List`, `Object` and `Null` are not
scalar shapes. -/
def Json.isScalarShape : Json → Bool
  | .I64 _ => true
  | .U64 _ => true
  | .F64 _ => true
  | .str _ => true
  | .boolean _ => true
  | _ => false

/-- Field values whose serialize-then-parse image keeps the same variant:
every variant except a non-negative `SolrI64` (which the parser brings back
as the `U64` variant). -/
def roundTrippable : SolrValue → Bool
  | .SolrI64 i => decide (i < 0)
  | _ => true

/-- Parse image of
`{"responseHeader":{"status":0,"QTime":1},"response":{"numFound":57,"start":0,"docs":[{"id":1},{"id":3}]}}`:
object members are collected into a `TreeMap`, hence listed in sorted key
order, and the non-negative integers parse to the `U64` variant. -/
def c5json : Json :=
  .obj [("response", .obj [("docs", .list [.obj [("id", .U64 1)], .obj [("id", .U64 3)]]),
                           ("numFound", .U64 57), ("start", .U64 0)]),
        ("responseHeader", .obj [("QTime", .U64 1), ("status", .U64 0)])]

/-- Parse image of a response whose `responseHeader` is missing and whose
`response` section is missing `numFound` but has `start` and `docs`:
two lookups fail, later-validated fields are still available. -/
def c1json : Json :=
  .obj [("response", .obj [("docs", .list [.obj [("id", .U64 7)]]), ("start", .U64 4)])]

/-- Parse image of a well-formed response whose `QTime` is present but holds
a boolean instead of a number. -/
def c2json : Json :=
  .obj [("response", .obj [("docs", .list []), ("numFound", .U64 0), ("start", .U64 0)]),
        ("responseHeader", .obj [("QTime", .boolean true), ("status", .U64 0)])]

/-- Parse image of a response whose `responseHeader` is missing `QTime` (a
lookup failure that records an error) and whose `status` is present but holds
a boolean (a mistyped value hit after the error was recorded). -/
def c4json : Json :=
  .obj [("responseHeader", .obj [("status", .boolean true)])]

/-- Parse image of the error envelope `{"error":{"msg":"bad request","code":400}}`. -/
def c8json : Json :=
  .obj [("error", .obj [("code", .U64 400), ("msg", .str "bad request")])]

/-- Top-level entries of a response whose `responseHeader` is missing but
whose `response` section is complete and well-typed. -/
def c9json : List (String × Json) :=
  [("response", .obj [("docs", .list []), ("numFound", .U64 3), ("start", .U64 0)])]

/-- Correspondence between a plain decoder state and an instrumented one:
same partial response, the single error string is the most recent recorded
message (`""` when none was recorded), and no recorded message is empty. -/
def RelSt (st : St) (stT : StT) : Prop :=
  st.1 = stT.1 ∧ st.2 = stT.2.getLastD "" ∧ ∀ m ∈ stT.2, m.length ≠ 0

/-- `RelSt` lifted to the abort-capable results. -/
def OptRelSt : Option St → Option StT → Prop
  | none, none => True
  | some st, some stT => RelSt st stT
  | _, _ => False

end Heliotrope

namespace Heliotrope

/-! ### Relating the plain traversal to the instrumented one -/

theorem getLastD_mem : ∀ (m : String) (rest : List String) (d : String),
    (m :: rest).getLastD d ∈ m :: rest := by
  intro m rest
  induction rest generalizing m with
  | nil => intro d; simp [List.getLastD]
  | cons b t ih =>
      intro d
      rw [List.getLastD_cons]
      exact List.mem_cons_of_mem m (ih b m)

theorem optRelSt_bind {o : Option St} {oT : Option StT} {f : St → Option St}
    {fT : StT → Option StT} (h : OptRelSt o oT)
    (hf : ∀ st stT, RelSt st stT → OptRelSt (f st) (fT stT)) :
    OptRelSt (o.bind f) (oT.bind fT) := by
  cases o <;> cases oT <;> simp only [OptRelSt] at h
  · show True; trivial
  · exact hf _ _ h

theorem relSt_record (st : St) (stT : StT) (msg : String) (h : RelSt st stT)
    (hm : msg.length ≠ 0) : RelSt (st.1, msg) (stT.1, stT.2 ++ [msg]) := by
  obtain ⟨h1, _, h3⟩ := h
  refine ⟨h1, (List.getLastD_concat _ _ _).symm, ?_⟩
  intro m hmem
  rcases List.mem_append.mp hmem with h' | h'
  · exact h3 m h'
  · rw [List.mem_singleton.mp h']; exact hm

theorem qtimeStep_rel (rh : Json) (st : St) (stT : StT) (h : RelSt st stT) :
    OptRelSt (qtimeStep rh st) (qtimeStepT rh stT) := by
  cases hf : rh.find "QTime" with
  | none =>
      simp only [qtimeStep, qtimeStepT, hf]
      exact relSt_record st stT _ h (by decide)
  | some tj =>
      cases ha : tj.as_i64 with
      | none => simp only [qtimeStep, qtimeStepT, hf, ha]; show True; trivial
      | some i =>
          simp only [qtimeStep, qtimeStepT, hf, ha]
          exact ⟨by rw [h.1], h.2.1, h.2.2⟩

theorem statusStep_rel (rh : Json) (st : St) (stT : StT) (h : RelSt st stT) :
    OptRelSt (statusStep rh st) (statusStepT rh stT) := by
  cases hf : rh.find "status" with
  | none =>
      simp only [statusStep, statusStepT, hf]
      exact relSt_record st stT _ h (by decide)
  | some sj =>
      cases ha : sj.as_u64 with
      | none => simp only [statusStep, statusStepT, hf, ha]; show True; trivial
      | some n =>
          simp only [statusStep, statusStepT, hf, ha]
          exact ⟨by rw [h.1], h.2.1, h.2.2⟩

theorem headerStep_rel (tm : List (String × Json)) (st : St) (stT : StT)
    (h : RelSt st stT) : OptRelSt (headerStep tm st) (headerStepT tm stT) := by
  cases hf : lookupEntries tm "responseHeader" with
  | none =>
      simp only [headerStep, headerStepT, hf]
      exact relSt_record st stT _ h (by decide)
  | some rh =>
      simp only [headerStep, headerStepT, hf]
      exact optRelSt_bind (qtimeStep_rel rh st stT h)
        (fun st1 stT1 h1 => statusStep_rel rh st1 stT1 h1)

theorem numFoundStep_rel (rs : Json) (st : St) (stT : StT) (h : RelSt st stT) :
    OptRelSt (numFoundStep rs st) (numFoundStepT rs stT) := by
  cases hf : rs.find "numFound" with
  | none =>
      simp only [numFoundStep, numFoundStepT, hf]
      exact relSt_record st stT _ h (by decide)
  | some tj =>
      cases ha : tj.as_u64 with
      | none => simp only [numFoundStep, numFoundStepT, hf, ha]; show True; trivial
      | some n =>
          simp only [numFoundStep, numFoundStepT, hf, ha]
          exact ⟨by rw [h.1], h.2.1, h.2.2⟩

theorem startStep_rel (rs : Json) (st : St) (stT : StT) (h : RelSt st stT) :
    OptRelSt (startStep rs st) (startStepT rs stT) := by
  cases hf : rs.find "start" with
  | none =>
      simp only [startStep, startStepT, hf]
      exact relSt_record st stT _ h (by decide)
  | some sj =>
      cases ha : sj.as_u64 with
      | none => simp only [startStep, startStepT, hf, ha]; show True; trivial
      | some n =>
          simp only [startStep, startStepT, hf, ha]
          exact ⟨by rw [h.1], h.2.1, h.2.2⟩

theorem docsLoop_rel (docs : List Json) : ∀ (resp : SolrQueryResponse)
    (err : String) (errs : List String),
    RelSt (resp, err) (resp, errs) →
    RelSt (docsLoop docs resp err) (docsLoopT docs resp errs) := by
  induction docs with
  | nil => intro resp err errs h; exact h
  | cons dj rest ih =>
      intro resp err errs h
      cases dj with
      | obj tm => exact ih _ err errs ⟨rfl, h.2.1, h.2.2⟩
      | I64 i => exact ih _ _ _ (relSt_record (resp, err) (resp, errs) _ h (by decide))
      | U64 n => exact ih _ _ _ (relSt_record (resp, err) (resp, errs) _ h (by decide))
      | F64 b => exact ih _ _ _ (relSt_record (resp, err) (resp, errs) _ h (by decide))
      | str s => exact ih _ _ _ (relSt_record (resp, err) (resp, errs) _ h (by decide))
      | boolean b => exact ih _ _ _ (relSt_record (resp, err) (resp, errs) _ h (by decide))
      | list l => exact ih _ _ _ (relSt_record (resp, err) (resp, errs) _ h (by decide))
      | null => exact ih _ _ _ (relSt_record (resp, err) (resp, errs) _ h (by decide))

theorem docsStep_rel (rs : Json) (st : St) (stT : StT) (h : RelSt st stT) :
    RelSt (docsStep rs st) (docsStepT rs stT) := by
  cases hf : rs.find "docs" with
  | none =>
      simp only [docsStep, docsStepT, hf]
      exact relSt_record st stT _ h (by decide)
  | some dj =>
      simp only [docsStep, docsStepT, hf]
      cases dj with
      | list docs =>
          have h1 := h.1
          exact h1 ▸ docsLoop_rel docs st.1 st.2 stT.2 ⟨rfl, h.2.1, h.2.2⟩
      | I64 i => exact relSt_record st stT _ h (by decide)
      | U64 n => exact relSt_record st stT _ h (by decide)
      | F64 b => exact relSt_record st stT _ h (by decide)
      | str s => exact relSt_record st stT _ h (by decide)
      | boolean b => exact relSt_record st stT _ h (by decide)
      | obj tm => exact relSt_record st stT _ h (by decide)
      | null => exact relSt_record st stT _ h (by decide)

theorem responseStep_rel (tm : List (String × Json)) (st : St) (stT : StT)
    (h : RelSt st stT) : OptRelSt (responseStep tm st) (responseStepT tm stT) := by
  cases hf : lookupEntries tm "response" with
  | none =>
      simp only [responseStep, responseStepT, hf]
      exact relSt_record st stT _ h (by decide)
  | some rs =>
      simp only [responseStep, responseStepT, hf]
      refine optRelSt_bind (optRelSt_bind (numFoundStep_rel rs st stT h)
        (fun st1 stT1 h1 => startStep_rel rs st1 stT1 h1)) (fun st2 stT2 h2 => ?_)
      exact docsStep_rel rs st2 stT2 h2

theorem runParsed_rel (parsed : Except String Json) :
    OptRelSt (runParsed parsed) (runParsedT parsed) := by
  cases parsed with
  | error e =>
      refine ⟨rfl, rfl, ?_⟩
      intro m hm
      rw [List.mem_singleton.mp hm, String.length_append]
      have : (0 : Nat) < ("SolrQueryResponse JSON parsing error: " : String).length := by decide
      omega
  | ok j =>
      cases j with
      | obj tm =>
          show OptRelSt ((headerStep tm (resp0, "")).bind (responseStep tm))
            ((headerStepT tm (resp0, [])).bind (responseStepT tm))
          refine optRelSt_bind (headerStep_rel tm (resp0, "") (resp0, []) ⟨rfl, rfl, by simp⟩)
            (fun st1 stT1 h1 => responseStep_rel tm st1 stT1 h1)
      | I64 i => exact ⟨rfl, rfl, by decide⟩
      | U64 n => exact ⟨rfl, rfl, by decide⟩
      | F64 b => exact ⟨rfl, rfl, by decide⟩
      | str s => exact ⟨rfl, rfl, by decide⟩
      | boolean b => exact ⟨rfl, rfl, by decide⟩
      | list l => exact ⟨rfl, rfl, by decide⟩
      | null => exact ⟨rfl, rfl, by decide⟩

/-- The decoder's observable result, computed from the instrumented traversal:
an abort stays an abort; a completed traversal succeeds exactly when no error
message was recorded, and otherwise surfaces the most recent message. -/
theorem from_json_str_eq_traced (parsed : Except String Json) :
    SolrQueryResponse.from_json_str parsed =
      (match runParsedT parsed with
       | none => .fault
       | some (resp, errs) =>
           if errs = [] then .ok resp else .err ⟨0, 0, errs.getLastD ""⟩) := by
  have h := runParsed_rel parsed
  unfold SolrQueryResponse.from_json_str
  cases ho : runParsed parsed with
  | none =>
      cases hoT : runParsedT parsed with
      | none => rfl
      | some stT => rw [ho, hoT] at h; exact h.elim
  | some st =>
      cases hoT : runParsedT parsed with
      | none => rw [ho, hoT] at h; exact h.elim
      | some stT =>
          rw [ho, hoT] at h
          obtain ⟨h1, h2, h3⟩ := h
          obtain ⟨resp, err⟩ := st
          obtain ⟨respT, errs⟩ := stT
          simp only at h1 h2
          subst h1
          cases errs with
          | nil =>
              simp only [List.getLastD_nil] at h2
              subst h2
              rfl
          | cons m rest =>
              have hmem : (m :: rest).getLastD "" ∈ m :: rest := getLastD_mem m rest ""
              have hne : err.length ≠ 0 := by rw [h2]; exact h3 _ hmem
              show (if err.length = 0 then DecodeResult.ok resp else DecodeResult.err ⟨0, 0, err⟩)
                = (if (m :: rest) = ([] : List String) then DecodeResult.ok resp
                   else DecodeResult.err ⟨0, 0, (m :: rest).getLastD ""⟩)
              rw [if_neg hne, if_neg (by simp : ¬(m :: rest) = []), h2]

/-! ### The instrumented traversal only appends error messages -/

theorem docsLoopT_mono (docs : List Json) : ∀ (resp : SolrQueryResponse)
    (errs : List String), ∃ new, (docsLoopT docs resp errs).2 = errs ++ new := by
  induction docs with
  | nil => exact fun resp errs => ⟨[], by simp [docsLoopT]⟩
  | cons dj rest ih =>
      intro resp errs
      cases dj <;>
        first
          | exact ih _ errs
          | exact
              (let p := ih resp (errs ++
                ["SolrQueryResponse JSON parsing error (response => docs): doc is not an object"])
               ⟨"SolrQueryResponse JSON parsing error (response => docs): doc is not an object"
                  :: p.choose, p.choose_spec.trans (by simp)⟩)

theorem docsStepT_mono (rs : Json) (st : StT) :
    ∃ new, (docsStepT rs st).2 = st.2 ++ new := by
  cases hf : rs.find "docs" with
  | none =>
      exact ⟨["SolrQueryResponse JSON parsing error (response): docs not found"],
        by simp only [docsStepT, hf]⟩
  | some dj =>
      cases dj <;> simp only [docsStepT, hf] <;>
        first
          | exact docsLoopT_mono _ st.1 st.2
          | exact ⟨["SolrQueryResponse JSON parsing error (response): docs is not a JSON list"], rfl⟩

theorem numFoundStepT_mono (rs : Json) (st st' : StT)
    (h : numFoundStepT rs st = some st') : ∃ new, st'.2 = st.2 ++ new := by
  cases hf : rs.find "numFound" with
  | none =>
      simp only [numFoundStepT, hf] at h
      exact ⟨_, by rw [← Option.some_inj.mp h]⟩
  | some tj =>
      cases ha : tj.as_u64 with
      | none => simp only [numFoundStepT, hf, ha] at h; exact Option.noConfusion h
      | some n =>
          simp only [numFoundStepT, hf, ha] at h
          exact ⟨[], by rw [← Option.some_inj.mp h]; simp⟩

theorem startStepT_mono (rs : Json) (st st' : StT)
    (h : startStepT rs st = some st') : ∃ new, st'.2 = st.2 ++ new := by
  cases hf : rs.find "start" with
  | none =>
      simp only [startStepT, hf] at h
      exact ⟨_, by rw [← Option.some_inj.mp h]⟩
  | some sj =>
      cases ha : sj.as_u64 with
      | none => simp only [startStepT, hf, ha] at h; exact Option.noConfusion h
      | some n =>
          simp only [startStepT, hf, ha] at h
          exact ⟨[], by rw [← Option.some_inj.mp h]; simp⟩

theorem responseStepT_mono (tm : List (String × Json)) (st st' : StT)
    (h : responseStepT tm st = some st') : ∃ new, st'.2 = st.2 ++ new := by
  cases hf : lookupEntries tm "response" with
  | none =>
      simp only [responseStepT, hf] at h
      exact ⟨_, by rw [← Option.some_inj.mp h]⟩
  | some rs =>
      simp only [responseStepT, hf] at h
      rw [Option.bind_eq_some] at h
      obtain ⟨st2, hmid, hfin⟩ := h
      rw [Option.bind_eq_some] at hmid
      obtain ⟨st1, hnf, hst⟩ := hmid
      obtain ⟨n1, h1⟩ := numFoundStepT_mono rs st st1 hnf
      obtain ⟨n2, h2⟩ := startStepT_mono rs st1 st2 hst
      obtain ⟨n3, h3⟩ := docsStepT_mono rs st2
      refine ⟨n1 ++ (n2 ++ n3), ?_⟩
      rw [← Option.some_inj.mp hfin, h3, h2, h1]
      simp

/-! ### Evaluating the docs loop and the envelope -/

theorem docsLoop_objs (l : List (List (String × Json))) :
    ∀ (resp : SolrQueryResponse) (err : String),
    docsLoop (l.map Json.obj) resp err
      = ({ resp with items := resp.items ++ l.map decodeDoc }, err) := by
  induction l with
  | nil => intro resp err; simp [docsLoop]
  | cons tm rest ih =>
      intro resp err
      simp only [List.map_cons, docsLoop, ih, List.append_assoc, List.singleton_append]

theorem from_json_str_envelope (docs : List (List (String × Json))) (nf st : Nat) :
    SolrQueryResponse.from_json_str (.ok (queryEnvelope (docs.map Json.obj) nf st 0 1))
      = .ok ⟨0, 1, nf, st, docs.map decodeDoc⟩ := by
  simp [queryEnvelope, SolrQueryResponse.from_json_str, runParsed, headerStep, qtimeStep,
    statusStep, responseStep, numFoundStep, startStep, docsStep, docsLoop_objs, lookupEntries,
    Json.find, Json.as_i64, Json.as_u64, i64ofU64, u64ofI64, u32ofI64, u32ofU64, resp0,
    Option.bind]

/-! ### The serialize-then-parse image of a sorted document -/

theorem treeInsert_append (acc : List (String × Json)) (k : String) (v : Json)
    (h : ∀ a ∈ acc, a.1 < k) : treeInsert acc k v = acc ++ [(k, v)] := by
  induction acc with
  | nil => rfl
  | cons a rest ih =>
      obtain ⟨ka, va⟩ := a
      have hak : ka < k := h (ka, va) (List.mem_cons_self _ _)
      simp only [treeInsert]
      rw [if_neg (lt_asymm hak), if_neg (Ne.symm (ne_of_lt hak)),
        ih (fun b hb => h b (List.mem_cons_of_mem _ hb))]
      rfl

theorem treeOfList_aux (l : List (String × Json)) :
    ∀ (acc : List (String × Json)),
    (∀ a ∈ acc, ∀ b ∈ l, a.1 < b.1) → l.Pairwise (fun a b => a.1 < b.1) →
    l.foldl (fun acc kv => treeInsert acc kv.1 kv.2) acc = acc ++ l := by
  induction l with
  | nil => intro acc _ _; simp
  | cons x rest ih =>
      intro acc hcross hp
      obtain ⟨hx, hp2⟩ := List.pairwise_cons.mp hp
      simp only [List.foldl_cons]
      rw [show treeInsert acc x.1 x.2 = acc ++ [x] from
        treeInsert_append acc x.1 x.2 (fun a ha => hcross a ha x (List.mem_cons_self _ _))]
      rw [ih (acc ++ [x]) ?cross hp2]
      · simp
      case cross =>
        intro a ha b hb
        rcases List.mem_append.mp ha with h1 | h1
        · exact hcross a h1 b (List.mem_cons_of_mem _ hb)
        · rw [List.mem_singleton.mp h1]; exact hx b hb

theorem treeOfList_sorted (l : List (String × Json))
    (h : l.Pairwise (fun a b => a.1 < b.1)) : treeOfList l = l := by
  have := treeOfList_aux l [] (by simp) h
  simpa [treeOfList] using this

theorem decode_jsonOfValue (v : SolrValue) (h : roundTrippable v = true) :
    decodeDocValue (jsonOfValue v) = v := by
  cases v with
  | SolrI64 i =>
      have hi : i < 0 := by simpa [roundTrippable] using h
      simp [jsonOfValue, hi, decodeDocValue]
  | SolrString s => rfl
  | SolrU64 n => rfl
  | SolrF64 b => rfl
  | SolrBoolean b => rfl
  | SolrNull => rfl

/-! ### Claim theorems -/

/-- Claim C1: during query-response decoding, a failed key lookup records a
descriptive error message and traversal continues through the remaining
expected keys in their fixed order (the instrumented traversal `runParsedT`
follows exactly that order and keeps every recorded message); whenever an
error is surfaced it is exactly the last message recorded, and
later-validated fields still populate the partial result.  Concretely, on an
input missing both `responseHeader` and `numFound`, both failures are
recorded, `start` and `docs` still populate the partial response, and the
surfaced message is the later one. -/
theorem from_json_str_surfaces_last_recorded_error :
    (∀ parsed, SolrQueryResponse.from_json_str parsed =
      (match runParsedT parsed with
       | none => .fault
       | some (resp, errs) =>
           if errs = [] then .ok resp else .err ⟨0, 0, errs.getLastD ""⟩)) ∧
    runParsedT (.ok c1json)
      = some (⟨0, 0, 0, 4, [⟨[⟨"id", .SolrU64 7⟩]⟩]⟩,
          ["SolrQueryResponse JSON parsing error: responseHeader not found",
           "SolrQueryResponse JSON parsing error (response): numFound not found"]) ∧
    SolrQueryResponse.from_json_str (.ok c1json)
      = .err ⟨0, 0, "SolrQueryResponse JSON parsing error (response): numFound not found"⟩ :=
  ⟨from_json_str_eq_traced, rfl, rfl⟩

/-- Claim C2 (refuted by the code): decoding is claimed to always return a
`Result` value, but on a response whose `QTime` is present and holds a
boolean the decoder aborts in `Option::unwrap` — the `fault` outcome —
instead of returning `Err`. -/
theorem from_json_str_faults_on_mistyped_qtime :
    SolrQueryResponse.from_json_str (.ok c2json) = DecodeResult.fault := rfl

/-- Claim C3 (counterexample): the document with the single field
`("id", SolrI64 1)` does not round-trip — its serialize-then-parse image
decodes with the field as `SolrU64 1`, a different value variant. -/
theorem roundtrip_counterexample :
    SolrQueryResponse.from_json_str
        (.ok (queryEnvelope [serializedDoc ⟨[⟨"id", .SolrI64 1⟩]⟩] 57 0 0 1))
      = .ok ⟨0, 1, 57, 0, [⟨[⟨"id", .SolrU64 1⟩]⟩]⟩ ∧
    (⟨[⟨"id", .SolrU64 1⟩]⟩ : SolrDocument) ≠ ⟨[⟨"id", .SolrI64 1⟩]⟩ :=
  ⟨rfl, by decide⟩

/-- Claim C3 (amended): for documents whose field names are strictly
increasing (so the parser's `TreeMap` neither reorders nor deduplicates
them) and whose values keep their variant across serialize-then-parse
(every variant except a non-negative `SolrI64`), decoding a query response
whose `docs` array contains the serialized document yields the same
document, same (name, value) pairs in the same order. -/
theorem roundtrip_sorted_documents (d : SolrDocument)
    (hsort : List.Chain' (fun a b => a < b) (d.fields.map SolrField.name))
    (hvals : ∀ f ∈ d.fields, roundTrippable f.value = true) :
    SolrQueryResponse.from_json_str (.ok (queryEnvelope [serializedDoc d] 57 0 0 1))
      = .ok ⟨0, 1, 57, 0, [d]⟩ := by
  have hpair : (d.fields.map fun f => (f.name, jsonOfValue f.value)).Pairwise
      (fun a b => a.1 < b.1) := by
    rw [List.pairwise_map]
    have h1 := List.chain'_iff_pairwise.mp hsort
    rw [List.pairwise_map] at h1
    exact h1
  have htree : treeOfList (d.fields.map fun f => (f.name, jsonOfValue f.value))
      = d.fields.map fun f => (f.name, jsonOfValue f.value) :=
    treeOfList_sorted _ hpair
  have hdoc : decodeDoc (d.fields.map fun f => (f.name, jsonOfValue f.value)) = d := by
    unfold decodeDoc
    rw [List.map_map]
    have hcong : ∀ f ∈ d.fields,
        ((fun kv => (⟨kv.1, decodeDocValue kv.2⟩ : SolrField)) ∘
          fun f => (f.name, jsonOfValue f.value)) f = id f := by
      intro f hf
      show (⟨f.name, decodeDocValue (jsonOfValue f.value)⟩ : SolrField) = f
      rw [decode_jsonOfValue f.value (hvals f hf)]
    rw [List.map_congr_left hcong, List.map_id]
  have hser : serializedDoc d
      = Json.obj (d.fields.map fun f => (f.name, jsonOfValue f.value)) := by
    rw [serializedDoc, htree]
  have henv := from_json_str_envelope [d.fields.map fun f => (f.name, jsonOfValue f.value)] 57 0
  rw [hser]
  simpa [hdoc] using henv

/-- Witness for the amended round-trip: a two-field document with sorted
names and round-trippable values decodes back to itself. -/
theorem roundtrip_sorted_documents_witness :
    SolrQueryResponse.from_json_str (.ok (queryEnvelope
        [serializedDoc ⟨[⟨"a", .SolrU64 5⟩, ⟨"b", .SolrString "x"⟩]⟩] 57 0 0 1))
      = .ok ⟨0, 1, 57, 0, [⟨[⟨"a", .SolrU64 5⟩, ⟨"b", .SolrString "x"⟩]⟩]⟩ :=
  roundtrip_sorted_documents ⟨[⟨"a", .SolrU64 5⟩, ⟨"b", .SolrString "x"⟩]⟩
    (List.chain'_cons.mpr ⟨String.lt_iff_toList_lt.mpr (by decide), List.chain'_singleton _⟩)
    (by decide)

/-- Claim C4 (amended): when the traversal completes without aborting, a
nonempty record of error messages forces the `Err` outcome carrying the last
recorded message, and an empty record forces `Ok` with the populated
response. -/
theorem recorded_errors_decide_outcome (parsed : Except String Json)
    (r : SolrQueryResponse) (es : List String)
    (h : runParsedT parsed = some (r, es)) :
    (es = [] → SolrQueryResponse.from_json_str parsed = .ok r) ∧
    (es ≠ [] → SolrQueryResponse.from_json_str parsed = .err ⟨0, 0, es.getLastD ""⟩) := by
  refine ⟨fun he => ?_, fun he => ?_⟩ <;> rw [from_json_str_eq_traced, h] <;> simp [he]

/-- Witness for the amended C4: a parse failure records one message and the
result is the matching `Err`. -/
theorem recorded_errors_decide_outcome_witness :
    SolrQueryResponse.from_json_str (.error "syntax error")
      = .err ⟨0, 0, "SolrQueryResponse JSON parsing error: syntax error"⟩ :=
  (recorded_errors_decide_outcome (.error "syntax error") resp0
      ["SolrQueryResponse JSON parsing error: syntax error"] rfl).2 (by decide)

/-- Claim C4 (counterexample): on a response whose header is missing `QTime`
(an error is recorded) and whose `status` holds a boolean, the final outcome
is an abort, not the claimed `Err`. -/
theorem error_recorded_yet_fault :
    qtimeStepT (.obj [("status", .boolean true)]) (resp0, [])
        = some (resp0,
            ["SolrQueryResponse JSON parsing error (responseHeader): QTime not found"]) ∧
    SolrQueryResponse.from_json_str (.ok c4json) = DecodeResult.fault :=
  ⟨rfl, rfl⟩

/-- Claim C5: decoding the example response yields `total = 57`,
`start = 0`, exactly two items, and a first item whose `id` field holds the
integer 1 (as the unsigned-integer variant). -/
theorem decode_example_query_response :
    SolrQueryResponse.from_json_str (.ok c5json)
      = .ok ⟨0, 1, 57, 0, [⟨[⟨"id", .SolrU64 1⟩]⟩, ⟨[⟨"id", .SolrU64 3⟩]⟩]⟩ ∧
    (⟨0, 1, 57, 0, [⟨[⟨"id", .SolrU64 1⟩]⟩, ⟨[⟨"id", .SolrU64 3⟩]⟩]⟩ :
        SolrQueryResponse).total = 57 ∧
    (⟨0, 1, 57, 0, [⟨[⟨"id", .SolrU64 1⟩]⟩, ⟨[⟨"id", .SolrU64 3⟩]⟩]⟩ :
        SolrQueryResponse).start = 0 ∧
    (⟨0, 1, 57, 0, [⟨[⟨"id", .SolrU64 1⟩]⟩, ⟨[⟨"id", .SolrU64 3⟩]⟩]⟩ :
        SolrQueryResponse).items.length = 2 ∧
    (⟨0, 1, 57, 0, [⟨[⟨"id", .SolrU64 1⟩]⟩, ⟨[⟨"id", .SolrU64 3⟩]⟩]⟩ :
        SolrQueryResponse).items.headD ⟨[]⟩ = ⟨[⟨"id", .SolrU64 1⟩]⟩ :=
  ⟨rfl, rfl, rfl, rfl, rfl⟩

/-- Claim C6: a document field whose JSON value is outside the supported
scalar shapes decodes to `SolrNull`; the surrounding document, the other
documents and the whole response still decode successfully. -/
theorem nonscalar_field_decodes_to_null (v : Json) (hv : v.isScalarShape = false)
    (k : String) (fs1 fs2 : List (String × Json)) (ds1 ds2 : List (List (String × Json)))
    (nf st : Nat) :
    decodeDocValue v = .SolrNull ∧
    SolrQueryResponse.from_json_str (.ok (queryEnvelope
        (ds1.map Json.obj ++ Json.obj (fs1 ++ (k, v) :: fs2) :: ds2.map Json.obj) nf st 0 1))
      = .ok ⟨0, 1, nf, st, (ds1 ++ (fs1 ++ (k, v) :: fs2) :: ds2).map decodeDoc⟩ ∧
    decodeDoc (fs1 ++ (k, v) :: fs2)
      = ⟨fs1.map (fun kv => ⟨kv.1, decodeDocValue kv.2⟩)
          ++ ⟨k, SolrValue.SolrNull⟩ :: fs2.map (fun kv => ⟨kv.1, decodeDocValue kv.2⟩)⟩ := by
  have h0 : decodeDocValue v = .SolrNull := by
    cases v <;> first | rfl | simp [Json.isScalarShape] at hv
  refine ⟨h0, ?_, ?_⟩
  · have hmap : ds1.map Json.obj ++ Json.obj (fs1 ++ (k, v) :: fs2) :: ds2.map Json.obj
        = (ds1 ++ (fs1 ++ (k, v) :: fs2) :: ds2).map Json.obj := by simp
    rw [hmap, from_json_str_envelope]
  · simp [decodeDoc, h0]

/-- Witness for C6: a nested empty object inside a three-field document,
followed by another document, decodes with that one field null and
everything else intact. -/
theorem nonscalar_field_decodes_to_null_witness :
    decodeDocValue (.obj []) = SolrValue.SolrNull ∧
    SolrQueryResponse.from_json_str (.ok (queryEnvelope
        (([] : List (List (String × Json))).map Json.obj
          ++ Json.obj ([("a", .U64 2)] ++ ("b", .obj []) :: [("c", .str "x")])
          :: [[("z", .boolean true)]].map Json.obj) 57 0 0 1))
      = .ok ⟨0, 1, 57, 0,
          (([] : List (List (String × Json)))
            ++ ([("a", Json.U64 2)] ++ ("b", Json.obj []) :: [("c", Json.str "x")])
            :: [[("z", Json.boolean true)]]).map decodeDoc⟩ ∧
    decodeDoc ([("a", .U64 2)] ++ ("b", .obj []) :: [("c", .str "x")])
      = ⟨[("a", Json.U64 2)].map (fun kv => ⟨kv.1, decodeDocValue kv.2⟩)
          ++ ⟨"b", SolrValue.SolrNull⟩
            :: [("c", Json.str "x")].map (fun kv => ⟨kv.1, decodeDocValue kv.2⟩)⟩ :=
  nonscalar_field_decodes_to_null (.obj []) rfl "b" [("a", .U64 2)] [("c", .str "x")]
    [] [[("z", .boolean true)]] 57 0

/-- Claim C7: a JSON parse failure decodes to `Err` with status 0, time 0,
and a message carrying the underlying parser's message. -/
theorem parse_failure_yields_err (e : String) :
    SolrQueryResponse.from_json_str (.error e)
      = .err ⟨0, 0, "SolrQueryResponse JSON parsing error: " ++ e⟩ := by
  have hlen : ("SolrQueryResponse JSON parsing error: " ++ e).length ≠ 0 := by
    rw [String.length_append]
    have h0 : 0 < ("SolrQueryResponse JSON parsing error: " : String).length := by decide
    omega
  show (if ("SolrQueryResponse JSON parsing error: " ++ e).length = 0
        then DecodeResult.ok resp0
        else DecodeResult.err ⟨0, 0, "SolrQueryResponse JSON parsing error: " ++ e⟩)
      = DecodeResult.err ⟨0, 0, "SolrQueryResponse JSON parsing error: " ++ e⟩
  rw [if_neg hlen]

/-- Claim C8: the error-envelope decoder reads
`{"error":{"msg":"bad request","code":400}}` as a SolrError with status 400
(from `error.code`) and message "bad request" (from `error.msg`). -/
theorem decode_error_envelope :
    SolrError.decode c8json = Except.ok ⟨400, 0, "bad request"⟩ := rfl

/-- Claim C9 (counterexample): on the empty JSON object — which lacks
`responseHeader` — decoding does yield an error, but the surfaced message is
the later-recorded `response not found` one and does not reference
`responseHeader`. -/
theorem missing_header_message_overwritten :
    SolrQueryResponse.from_json_str (.ok (.obj []))
      = .err ⟨0, 0, "SolrQueryResponse JSON parsing error: response not found"⟩ ∧
    ¬ ("responseHeader".toList <:+:
        "SolrQueryResponse JSON parsing error: response not found".toList) :=
  ⟨rfl, by decide⟩

/-- Claim C9 (amended): a JSON-object input lacking `responseHeader` never
decodes successfully; and whenever the header failure is the only recorded
error, the surfaced message is the header message, which references
`responseHeader` (a later lookup failure in the `response` section
overwrites it otherwise). -/
theorem missing_header_never_ok (tm : List (String × Json))
    (h : lookupEntries tm "responseHeader" = none) :
    (∀ r, SolrQueryResponse.from_json_str (.ok (.obj tm)) ≠ .ok r) ∧
    (∀ r es, runParsedT (.ok (.obj tm)) = some (r, es) → es.length = 1 →
      SolrQueryResponse.from_json_str (.ok (.obj tm))
        = .err ⟨0, 0, "SolrQueryResponse JSON parsing error: responseHeader not found"⟩ ∧
      ("responseHeader".toList <:+:
        "SolrQueryResponse JSON parsing error: responseHeader not found".toList)) := by
  have hhdr : headerStepT tm (resp0, [])
      = some (resp0, ["SolrQueryResponse JSON parsing error: responseHeader not found"]) := by
    simp only [headerStepT, h, List.nil_append]
  have hrun : runParsedT (.ok (.obj tm))
      = responseStepT tm
          (resp0, ["SolrQueryResponse JSON parsing error: responseHeader not found"]) := by
    show (headerStepT tm (resp0, [])).bind (responseStepT tm) = _
    rw [hhdr]
    rfl
  constructor
  · intro r hok
    rw [from_json_str_eq_traced, hrun] at hok
    cases hres : responseStepT tm
        (resp0, ["SolrQueryResponse JSON parsing error: responseHeader not found"]) with
    | none => rw [hres] at hok; exact DecodeResult.noConfusion hok
    | some stp =>
        obtain ⟨r2, es⟩ := stp
        rw [hres] at hok
        obtain ⟨new, hnew⟩ := responseStepT_mono tm _ _ hres
        have hne : es ≠ [] := by
          have h2 : es = "SolrQueryResponse JSON parsing error: responseHeader not found"
              :: new := hnew
          rw [h2]; simp
        simp [hne] at hok
  · intro r es hsome hlen
    rw [hrun] at hsome
    obtain ⟨new, hnew⟩ := responseStepT_mono tm _ _ hsome
    have h2 : es = "SolrQueryResponse JSON parsing error: responseHeader not found"
        :: new := hnew
    have hes : es = ["SolrQueryResponse JSON parsing error: responseHeader not found"] := by
      rw [h2] at hlen ⊢
      simp only [List.length_cons] at hlen
      have hnew0 : new = [] := List.eq_nil_of_length_eq_zero (by omega)
      rw [hnew0]
    refine ⟨?_, by decide⟩
    rw [from_json_str_eq_traced, hrun, hsome]
    simp [hes]

/-- Witness for the amended C9: a response with a complete `response`
section but no `responseHeader` is rejected with the header message. -/
theorem missing_header_never_ok_witness :
    (SolrQueryResponse.from_json_str (.ok (.obj c9json)) ≠ .ok resp0) ∧
    (SolrQueryResponse.from_json_str (.ok (.obj c9json))
        = .err ⟨0, 0, "SolrQueryResponse JSON parsing error: responseHeader not found"⟩ ∧
      ("responseHeader".toList <:+:
        "SolrQueryResponse JSON parsing error: responseHeader not found".toList)) :=
  ⟨(missing_header_never_ok c9json rfl).1 resp0,
   (missing_header_never_ok c9json rfl).2 ⟨0, 0, 3, 0, []⟩
     ["SolrQueryResponse JSON parsing error: responseHeader not found"] rfl rfl⟩

/-- Claim C10: every `Err` the query-response decoder returns carries
status 0 and time 0, whatever kind of failure produced it. -/
theorem from_json_str_errors_zero_status_time (parsed : Except String Json)
    (e : SolrError) (h : SolrQueryResponse.from_json_str parsed = .err e) :
    e.status = 0 ∧ e.time = 0 := by
  unfold SolrQueryResponse.from_json_str at h
  split at h
  · exact DecodeResult.noConfusion h
  · split at h
    · exact DecodeResult.noConfusion h
    · rw [← DecodeResult.err.inj h]
      exact ⟨rfl, rfl⟩

/-- Witness for C10: the error produced by a parse failure has status 0 and
time 0. -/
theorem from_json_str_errors_zero_status_time_witness :
    (⟨0, 0, "SolrQueryResponse JSON parsing error: bad"⟩ : SolrError).status = 0 ∧
    (⟨0, 0, "SolrQueryResponse JSON parsing error: bad"⟩ : SolrError).time = 0 :=
  from_json_str_errors_zero_status_time (.error "bad") _ rfl

end Heliotrope
